import Mathlib

/-!
Shallow embedding of the realtime voice-chat client of this repository
(Socket.IO session service, audio recording service, audio playback service)
and proofs of the spec claims about it.

Sections:
1. PCM codec: `AudioRecordingService.float32ToInt16` (src/unnamed/part_005,
   lines 176-183) and `AudioPlaybackService.decodePCMAudio`
   (src/src/services/audioPlayback.ts, lines 128-150).
2. Websocket session service: `WebsocketService` (src/unnamed/part_004).
3. Socket.IO reconnection handlers (src/unnamed/part_004, lines 189-207).
4. Audio playback queue: `AudioPlaybackService.addAudioData` / `playNext`
   (src/src/services/audioPlayback.ts, lines 39-123).
5. Session info shallow copy: `WebsocketService.getSessionInfo`
   (src/unnamed/part_004, lines 430-436).
-/

namespace VC

/-! ## Section 1: PCM codec

Samples are modelled as rationals. This is exact for the source: the
JavaScript computation `s * 0x7FFF` / `s * 0x8000` on a float32 sample `s`
is exact in float64 (24-bit by 15-16-bit products fit in 53 bits), the
assignment into an `Int16Array` truncates toward zero (ToInt16 after
ToIntegerOrInfinity), and `pcmData[i] / 32768.0` divides by a power of two,
which is again exact. -/

/-- Truncation toward zero, the conversion JavaScript applies when a number
is stored into an `Int16Array` element (after clipping, values fit in
the int16 range, so no wraparound occurs). -/
def ratTrunc (q : ℚ) : ℤ := if 0 ≤ q then ⌊q⌋ else -⌊-q⌋

theorem ratTrunc_of_nonneg (q : ℚ) (h : 0 ≤ q) : ratTrunc q = ⌊q⌋ := if_pos h

theorem ratTrunc_of_neg (q : ℚ) (h : q < 0) : ratTrunc q = ⌈q⌉ := by
  rw [ratTrunc, if_neg (not_le.2 h), Int.floor_neg, neg_neg]

/-- Clipping step of `float32ToInt16`: `Math.max(-1, Math.min(1, x))`. -/
def clip (x : ℚ) : ℚ := max (-1) (min 1 x)

/-- One sample of `AudioRecordingService.float32ToInt16`
(src/unnamed/part_005 lines 176-183):
`const s = Math.max(-1, Math.min(1, float32Array[i]));`
`int16Array[i] = s < 0 ? s * 0x8000 : s * 0x7FFF`. -/
def float32ToInt16Sample (x : ℚ) : ℤ :=
  let s := clip x
  if s < 0 then ratTrunc (s * 32768) else ratTrunc (s * 32767)

/-- `AudioRecordingService.float32ToInt16` over a whole buffer. -/
def float32ToInt16 (xs : List ℚ) : List ℤ := xs.map float32ToInt16Sample

/-- One sample of `AudioPlaybackService.decodePCMAudio`
(src/src/services/audioPlayback.ts lines 143-147):
`channelData[i] = pcmData[i] / 32768.0`. -/
def decodePCMSample (i : ℤ) : ℚ := (i : ℚ) / 32768

/-- `AudioPlaybackService.decodePCMAudio` over a whole int16 buffer. -/
def decodePCMAudio (l : List ℤ) : List ℚ := l.map decodePCMSample

theorem clip_mem_Icc (x : ℚ) : -1 ≤ clip x ∧ clip x ≤ 1 := by
  unfold clip
  constructor
  · exact le_max_left _ _
  · exact max_le (by norm_num) (min_le_left _ _)

theorem clip_eq_self (x : ℚ) (h1 : -1 ≤ x) (h2 : x ≤ 1) : clip x = x := by
  unfold clip
  rw [min_eq_right h2, max_eq_right h1]

/-- C8: the PCM fallback maps each float sample to int16 by clipping
symmetrically to the interval from -1 to 1, then scaling positive samples
by 32767 and negative samples by 32768 (truncated toward zero); every
output lies in the int16 range and +1.0 maps to 32767 without overflow. -/
theorem C8_float32ToInt16_clip_scale_range :
    (∀ x : ℚ, -32768 ≤ float32ToInt16Sample x ∧ float32ToInt16Sample x ≤ 32767) ∧
    float32ToInt16Sample 1 = 32767 ∧
    (∀ x : ℚ, -1 ≤ clip x ∧ clip x ≤ 1) ∧
    (∀ x : ℚ, 0 ≤ clip x → float32ToInt16Sample x = ⌊clip x * 32767⌋) ∧
    (∀ x : ℚ, clip x < 0 → float32ToInt16Sample x = ⌈clip x * 32768⌉) := by
  refine ⟨?_, ?_, clip_mem_Icc, ?_, ?_⟩
  · intro x
    obtain ⟨hl, hu⟩ := clip_mem_Icc x
    unfold float32ToInt16Sample
    by_cases hs : clip x < 0
    · rw [if_pos hs, ratTrunc_of_neg _ (by nlinarith)]
      constructor
      · have h2 : ((-32768 : ℤ) : ℚ) ≤ clip x * 32768 := by push_cast; nlinarith
        calc (-32768 : ℤ) = ⌈((-32768 : ℤ) : ℚ)⌉ := (Int.ceil_intCast _).symm
          _ ≤ ⌈clip x * 32768⌉ := Int.ceil_le_ceil h2
      · have h0 : clip x * 32768 ≤ ((0 : ℤ) : ℚ) := by push_cast; nlinarith
        have := Int.ceil_le.2 h0
        omega
    · push_neg at hs
      rw [if_neg (not_lt.2 hs), ratTrunc_of_nonneg _ (by positivity)]
      constructor
      · have := Int.floor_nonneg.2 (by positivity : (0:ℚ) ≤ clip x * 32767)
        omega
      · have h1 : clip x * 32767 ≤ 32767 := by nlinarith
        have := Int.floor_le_floor (α := ℚ) h1
        simpa using this
  · unfold float32ToInt16Sample
    rw [clip_eq_self 1 (by norm_num) (by norm_num)]
    norm_num [ratTrunc]
  · intro x h
    unfold float32ToInt16Sample
    rw [if_neg (not_lt.2 h), ratTrunc_of_nonneg _ (by positivity)]
  · intro x h
    unfold float32ToInt16Sample
    rw [if_pos h, ratTrunc_of_neg _ (by nlinarith)]

theorem pcm_roundtrip_sample (x : ℚ) (h1 : -1 ≤ x) (h2 : x ≤ 1) :
    |decodePCMSample (float32ToInt16Sample x) - x| < 2 / 32768 := by
  unfold float32ToInt16Sample decodePCMSample
  rw [clip_eq_self x h1 h2]
  by_cases hx : x < 0
  · rw [if_pos hx, ratTrunc_of_neg _ (by nlinarith)]
    have hle : (x * 32768 : ℚ) ≤ (⌈x * 32768⌉ : ℚ) := Int.le_ceil _
    have hlt : ((⌈x * 32768⌉ : ℚ)) < x * 32768 + 1 := Int.ceil_lt_add_one _
    rw [abs_lt]
    constructor <;> linarith
  · push_neg at hx
    rw [if_neg (not_lt.2 hx), ratTrunc_of_nonneg _ (by positivity)]
    have hfl : ((⌊x * 32767⌋ : ℚ)) ≤ x * 32767 := Int.floor_le _
    have hfg : x * 32767 - 1 < ((⌊x * 32767⌋ : ℚ)) := Int.sub_one_lt_floor _
    rw [abs_lt]
    constructor <;> linarith

/-- C7 counterexample: the float32 sample 65535/65536 lies in the interval
from -1 to 1, but the encode-decode round trip moves it by 3/65536, which
is one and a half quantization steps, more than the claimed 1/32768. -/
theorem C7_counterexample :
    (-1 ≤ (65535 / 65536 : ℚ) ∧ (65535 / 65536 : ℚ) ≤ 1) ∧
    ¬ |decodePCMSample (float32ToInt16Sample (65535 / 65536)) - 65535 / 65536| ≤ 1 / 32768 := by
  have henc : float32ToInt16Sample (65535 / 65536) = 32766 := by
    unfold float32ToInt16Sample
    rw [clip_eq_self _ (by norm_num) (by norm_num)]
    rw [if_neg (by norm_num), ratTrunc_of_nonneg _ (by norm_num)]
    rw [Int.floor_eq_iff]
    norm_num
  refine ⟨⟨by norm_num, by norm_num⟩, ?_⟩
  rw [henc]
  unfold decodePCMSample
  rw [abs_le]
  intro h
  have := h.1
  norm_num at this

/-- C7 amended: encoding a float32 buffer of samples in the interval from
-1 to 1 via the PCM fallback and decoding it back reproduces every sample
within two quantization steps (strictly less than 2/32768); one step does
not always suffice, see the counterexample. -/
theorem C7_pcm_roundtrip_two_steps (xs : List ℚ)
    (hx : ∀ x ∈ xs, -1 ≤ x ∧ x ≤ 1) :
    List.Forall₂ (fun x y => |y - x| < 2 / 32768) xs
      (decodePCMAudio (float32ToInt16 xs)) := by
  unfold decodePCMAudio float32ToInt16
  rw [List.map_map, List.forall₂_map_right_iff]
  exact List.forall₂_same.2 fun x hm =>
    pcm_roundtrip_sample x (hx x hm).1 (hx x hm).2

/-- Witness for C7 amended: the all-samples-equal-one-half buffer from the
spec, instantiated at a one-element buffer. -/
theorem C7_pcm_roundtrip_two_steps_witness :
    List.Forall₂ (fun x y => |y - x| < 2 / 32768) [(1 / 2 : ℚ)]
      (decodePCMAudio (float32ToInt16 [(1 / 2 : ℚ)])) :=
  C7_pcm_roundtrip_two_steps [(1 / 2 : ℚ)]
    (by intro x hm; rw [List.mem_singleton] at hm; subst hm; norm_num)

/-! ## Section 2: WebsocketService (src/unnamed/part_004)

The service is single-threaded event-driven code; its observable behavior is
modelled as explicit state passing plus an ordered trace of effects.
External inputs of one `connect` call (token sources read by
`getAccessToken`, whether the transport open succeeds, the identity of the
freshly constructed socket, whether `socket.emit` throws) are passed as
parameters. -/

/-- Connection states of the service (src/types, used throughout
src/unnamed/part_004). -/
inductive ConnectionState
  | disconnected
  | connecting
  | connected
  | reconnecting
  | error
deriving DecidableEq, Repr

/-- The `sessionInfo` record of `WebsocketService` (src/unnamed/part_004
lines 28-34); `startTime` (a Date) is modelled as a numeric timestamp. -/
structure SessionInfo where
  sessionId : String
  startTime : Nat
  messageCount : Nat
  audioBytesSent : Nat
  audioBytesReceived : Nat
deriving DecidableEq, Repr

/-- Mutable fields of `WebsocketService`. The socket handle and the
registered handler record are opaque identities. -/
structure ServiceState where
  socket : Option Nat
  connectionState : ConnectionState
  reconnectAttempts : Nat
  eventHandlers : Nat
  sessionInfo : SessionInfo
deriving DecidableEq, Repr

/-- Observable effects of the service, in program order. `emitted` is an
actual send on the Socket.IO transport; `errorNotified` is `handleError`
reaching `errorHandler.showErrorMessage` and the `onError` handler. -/
inductive Effect
  | socketCreated (id : Nat)
  | socketConnect
  | emitted (event : String)
  | logWarn (msg : String)
  | logError (msg : String)
  | errorNotified
  | connectedCallback
  | disconnectedCallback
deriving DecidableEq, Repr

/-- `WebsocketService.emit` (src/unnamed/part_004 lines 374-387). The
`emitThrows` parameter tells whether the underlying `socket.emit` throws;
the catch block logs and notifies but never rethrows. -/
def emit (st : ServiceState) (event : String) (emitThrows : Bool) :
    ServiceState × List Effect :=
  if st.socket = none ∨ st.connectionState ≠ ConnectionState.connected then
    (st, [Effect.logError "Cannot emit event: not connected"])
  else if emitThrows then
    (st, [Effect.logError "Failed to emit event", Effect.errorNotified])
  else
    ({ st with sessionInfo :=
        { st.sessionInfo with messageCount := st.sessionInfo.messageCount + 1 } },
     [Effect.emitted event])

/-- `WebsocketService.sendAudioData` (src/unnamed/part_004 lines 392-405). -/
def sendAudioData (st : ServiceState) (byteLength : Nat) (emitThrows : Bool) :
    ServiceState × List Effect :=
  if st.socket = none ∨ st.connectionState ≠ ConnectionState.connected then
    (st, [Effect.logError "Cannot send audio: not connected"])
  else if emitThrows then
    (st, [Effect.logError "Failed to send audio data", Effect.errorNotified])
  else
    ({ st with sessionInfo :=
        { st.sessionInfo with audioBytesSent := st.sessionInfo.audioBytesSent + byteLength } },
     [Effect.emitted "audio"])

/-- `WebsocketService.sendHello` (src/unnamed/part_004 lines 281-298): it
builds the hello message and hands it to `emit`. -/
def sendHello (st : ServiceState) (emitThrows : Bool) : ServiceState × List Effect :=
  emit st "hello" emitThrows

/-- JavaScript `a || b` on strings: the empty string is the only falsy
string value. -/
def jsOrString (a b : String) : String := if a = "" then b else a

/-- `getAccessToken` (src/src/config/websocket.ts lines 110-117):
`localStorage.getItem` may return null (modelled as `none`), then the
config token, then the env token, then the empty string. -/
def getAccessToken (storageToken : Option String) (configToken envToken : String) :
    String :=
  jsOrString (jsOrString (jsOrString (storageToken.getD "") configToken) envToken) ""

/-- Outcome of waiting for the transport to open (the promise at
src/unnamed/part_004 lines 125-139): either the connect event fires, or a
connect error or the 10 second timeout rejects. -/
inductive TransportOutcome
  | opens
  | failsOrTimesOut
deriving DecidableEq, Repr

/-- External inputs of a single `connect` call. -/
structure ConnectEnv where
  storageToken : Option String
  configToken : String
  envToken : String
  outcome : TransportOutcome
  newSocketId : Nat
  helloEmitThrows : Bool
deriving DecidableEq, Repr

/-- Result of the promise returned by `connect`: it resolves, or it rejects
with the message of the thrown error. -/
inductive ConnectResult
  | resolved
  | rejected (msg : String)
deriving DecidableEq, Repr

/-- `WebsocketService.connect` (src/unnamed/part_004 lines 39-154), with
its result promise as a `ConnectResult`. Program order of the success path: set
state connecting, read the token (throw when empty, before `io(...)` runs),
construct the socket, call `socket.connect()`, await the open, call
`sendHello`, and only then set state connected, reset the retry counter and
fire `onConnected`. On a throw the catch block sets state error, runs
`handleError` and rethrows. -/
def connect (st : ServiceState) (handlers : Nat) (env : ConnectEnv) :
    ServiceState × List Effect × ConnectResult :=
  if st.socket ≠ none ∧ st.connectionState = ConnectionState.connected then
    (st, [Effect.logWarn "Already connected to Socket.IO server"], ConnectResult.resolved)
  else
    let st1 := { st with eventHandlers := handlers,
                         connectionState := ConnectionState.connecting }
    if getAccessToken env.storageToken env.configToken env.envToken = "" then
      ({ st1 with connectionState := ConnectionState.error },
       [Effect.errorNotified],
       ConnectResult.rejected "Access token is required for authentication")
    else
      let st2 := { st1 with socket := some env.newSocketId }
      match env.outcome with
      | TransportOutcome.failsOrTimesOut =>
          ({ st2 with connectionState := ConnectionState.error },
           [Effect.socketCreated env.newSocketId, Effect.socketConnect,
            Effect.errorNotified],
           ConnectResult.rejected "Connection timeout")
      | TransportOutcome.opens =>
          let hello := sendHello st2 env.helloEmitThrows
          let st3 := { hello.1 with connectionState := ConnectionState.connected,
                                    reconnectAttempts := 0 }
          (st3,
           [Effect.socketCreated env.newSocketId, Effect.socketConnect] ++
             hello.2 ++ [Effect.connectedCallback],
           ConnectResult.resolved)

/-- Fresh service state as initialized at src/unnamed/part_004 lines 24-34. -/
def initialState : ServiceState :=
  { socket := none
    connectionState := ConnectionState.disconnected
    reconnectAttempts := 0
    eventHandlers := 0
    sessionInfo :=
      { sessionId := ""
        startTime := 0
        messageCount := 0
        audioBytesSent := 0
        audioBytesReceived := 0 } }

/-- A successful connect sequence from the fresh state: valid token, the
transport opens, `socket.emit` does not throw. -/
def successfulConnectEnv : ConnectEnv :=
  { storageToken := some "token"
    configToken := ""
    envToken := ""
    outcome := TransportOutcome.opens
    newSocketId := 7
    helloEmitThrows := false }

/-- The run of that successful connect sequence. -/
def successfulConnectRun : ServiceState × List Effect × ConnectResult :=
  connect initialState 1 successfulConnectEnv

/-- C1: on a successful connect sequence the caller resolves with the state
set to connected and a `sendAudio` right after it succeeds, but the hello
handshake message is never sent to the transport: `sendHello` runs while
`connectionState` is still `connecting`, so the guard in `emit` drops it
with the log `Cannot emit event: not connected`. This contradicts the
claimed ordering (hello sent strictly before the state becomes connected)
and the connection flow in the repository docs. -/
theorem C1_hello_dropped_on_successful_connect :
    successfulConnectRun.2.2 = ConnectResult.resolved ∧
    successfulConnectRun.1.connectionState = ConnectionState.connected ∧
    Effect.emitted "hello" ∉ successfulConnectRun.2.1 ∧
    Effect.logError "Cannot emit event: not connected" ∈ successfulConnectRun.2.1 ∧
    (sendAudioData successfulConnectRun.1 10 false).2 = [Effect.emitted "audio"] := by
  decide

/-- C4: calling connect with the bearer token empty or absent in every
source rejects with the token error before any transport object exists: no
socket is constructed, no connection is opened, the socket field is
unchanged, and the failure is surfaced to the caller through `handleError`
plus the rethrown rejection. -/
theorem C4_empty_token_rejects_before_transport
    (st : ServiceState) (handlers : Nat) (env : ConnectEnv)
    (hnc : st.connectionState ≠ ConnectionState.connected)
    (htok : getAccessToken env.storageToken env.configToken env.envToken = "") :
    (connect st handlers env).2.2 =
      ConnectResult.rejected "Access token is required for authentication" ∧
    (∀ id, Effect.socketCreated id ∉ (connect st handlers env).2.1) ∧
    Effect.socketConnect ∉ (connect st handlers env).2.1 ∧
    (connect st handlers env).1.socket = st.socket ∧
    (connect st handlers env).1.connectionState = ConnectionState.error ∧
    Effect.errorNotified ∈ (connect st handlers env).2.1 := by
  have hguard : ¬(st.socket ≠ none ∧ st.connectionState = ConnectionState.connected) := by
    intro h
    exact hnc h.2
  unfold connect
  rw [if_neg hguard, if_pos htok]
  refine ⟨rfl, ?_, ?_, rfl, rfl, ?_⟩ <;> simp

/-- Witness for C4: connecting the fresh service with every token source
empty or absent. -/
theorem C4_empty_token_rejects_before_transport_witness :
    (connect initialState 1
        { storageToken := none, configToken := "", envToken := "",
          outcome := TransportOutcome.opens, newSocketId := 7,
          helloEmitThrows := false }).2.2 =
      ConnectResult.rejected "Access token is required for authentication" ∧
    (∀ id, Effect.socketCreated id ∉
      (connect initialState 1
        { storageToken := none, configToken := "", envToken := "",
          outcome := TransportOutcome.opens, newSocketId := 7,
          helloEmitThrows := false }).2.1) ∧
    Effect.socketConnect ∉
      (connect initialState 1
        { storageToken := none, configToken := "", envToken := "",
          outcome := TransportOutcome.opens, newSocketId := 7,
          helloEmitThrows := false }).2.1 ∧
    (connect initialState 1
        { storageToken := none, configToken := "", envToken := "",
          outcome := TransportOutcome.opens, newSocketId := 7,
          helloEmitThrows := false }).1.socket = initialState.socket ∧
    (connect initialState 1
        { storageToken := none, configToken := "", envToken := "",
          outcome := TransportOutcome.opens, newSocketId := 7,
          helloEmitThrows := false }).1.connectionState = ConnectionState.error ∧
    Effect.errorNotified ∈
      (connect initialState 1
        { storageToken := none, configToken := "", envToken := "",
          outcome := TransportOutcome.opens, newSocketId := 7,
          helloEmitThrows := false }).2.1 :=
  C4_empty_token_rejects_before_transport initialState 1 _ (by decide) (by decide)

/-- C6: while the service state is not connected, `emit` and
`sendAudioData` drop the data immediately: the whole service state
(connection state, socket, counters) is returned unchanged, the only effect
is an error log, nothing is emitted or queued, and no exception reaches the
caller (both functions return normally). -/
theorem C6_send_while_disconnected
    (st : ServiceState) (event : String) (byteLength : Nat) (t1 t2 : Bool)
    (h : st.connectionState ≠ ConnectionState.connected) :
    emit st event t1 = (st, [Effect.logError "Cannot emit event: not connected"]) ∧
    sendAudioData st byteLength t2 =
      (st, [Effect.logError "Cannot send audio: not connected"]) := by
  unfold emit sendAudioData
  rw [if_pos (Or.inr h), if_pos (Or.inr h)]
  exact ⟨rfl, rfl⟩

/-- Witness for C6: a disconnected service dropping a listen message and an
audio frame. -/
theorem C6_send_while_disconnected_witness :
    emit initialState "listen" false =
      (initialState, [Effect.logError "Cannot emit event: not connected"]) ∧
    sendAudioData initialState 320 false =
      (initialState, [Effect.logError "Cannot send audio: not connected"]) :=
  C6_send_while_disconnected initialState "listen" 320 false false (by decide)

/-- C9: calling connect while a socket exists and the state is connected is
an idempotent no-op: the returned state is identical (same socket handle,
state, counters and handler record), no transport is constructed, no hello
is emitted, only the already-connected warning is logged. -/
theorem C9_connect_idempotent_when_connected
    (st : ServiceState) (handlers : Nat) (env : ConnectEnv)
    (hs : st.socket ≠ none)
    (hc : st.connectionState = ConnectionState.connected) :
    connect st handlers env =
      (st, [Effect.logWarn "Already connected to Socket.IO server"], ConnectResult.resolved) := by
  unfold connect
  rw [if_pos ⟨hs, hc⟩]

/-- Witness for C9: a connected service with one message counted; the
second connect call changes nothing and sends nothing. -/
theorem C9_connect_idempotent_when_connected_witness :
    connect
      { socket := some 7, connectionState := ConnectionState.connected,
        reconnectAttempts := 0, eventHandlers := 1,
        sessionInfo := { sessionId := "", startTime := 0, messageCount := 1,
                         audioBytesSent := 0, audioBytesReceived := 0 } }
      2 successfulConnectEnv =
    ({ socket := some 7, connectionState := ConnectionState.connected,
       reconnectAttempts := 0, eventHandlers := 1,
       sessionInfo := { sessionId := "", startTime := 0, messageCount := 1,
                        audioBytesSent := 0, audioBytesReceived := 0 } },
     [Effect.logWarn "Already connected to Socket.IO server"], ConnectResult.resolved) :=
  C9_connect_idempotent_when_connected _ 2 successfulConnectEnv (by decide) (by decide)

/-! ## Section 3: Socket.IO reconnection handlers

Reconnection itself is performed by the Socket.IO client library, as
configured by `connect` (`reconnection`, `reconnectionAttempts`). On an
unexpected transport loss the library fires `reconnect_attempt` with the
attempt number before each try; when every configured attempt has failed it
fires `reconnect_failed` once and stops retrying. The service code under
verification is the listeners registered in `setupEventListeners`
(src/unnamed/part_004 lines 189-207); the driver below replays the library
event sequence of a run whose every attempt fails. -/

/-- The `reconnect_attempt` listener (src/unnamed/part_004 lines 189-193). -/
def onReconnectAttempt (st : ServiceState) (attemptNumber : Nat) : ServiceState :=
  { st with reconnectAttempts := attemptNumber,
            connectionState := ConnectionState.reconnecting }

/-- The `reconnect_failed` listener (src/unnamed/part_004 lines 202-206):
it logs, sets the state to error and runs `handleError`, which notifies the
caller once. -/
def onReconnectFailed (st : ServiceState) : ServiceState × List Effect :=
  ({ st with connectionState := ConnectionState.error },
   [Effect.logError "Reconnection failed", Effect.errorNotified])

/-- The service state after the library has fired `reconnect_attempt` for
attempts 1 up to `maxAttempts` (each of which fails at the transport). -/
def reconnectAttemptsRun (st : ServiceState) (maxAttempts : Nat) : ServiceState :=
  (List.range maxAttempts).foldl (fun s i => onReconnectAttempt s (i + 1)) st

/-- A full failed-reconnection run: `maxAttempts` consecutive transport
failures, then the library gives up and fires `reconnect_failed`. -/
def reconnectFailureRun (st : ServiceState) (maxAttempts : Nat) :
    ServiceState × List Effect :=
  onReconnectFailed (reconnectAttemptsRun st maxAttempts)

/-- A connected service state, as it stands after a successful connect. -/
def connectedState : ServiceState :=
  { socket := some 7
    connectionState := ConnectionState.connected
    reconnectAttempts := 0
    eventHandlers := 1
    sessionInfo :=
      { sessionId := ""
        startTime := 0
        messageCount := 0
        audioBytesSent := 0
        audioBytesReceived := 0 } }

/-- C3 counterexample: with a budget of three attempts, after three
consecutive transport failures the service ends in the error state, not in
the disconnected state the claim requires. -/
theorem C3_counterexample :
    (reconnectFailureRun connectedState 3).1.connectionState = ConnectionState.error ∧
    (reconnectFailureRun connectedState 3).1.connectionState ≠
      ConnectionState.disconnected := by
  decide

theorem reconnectAttemptsRun_fields (st : ServiceState) (m : Nat) :
    (reconnectAttemptsRun st m).socket = st.socket ∧
    (reconnectAttemptsRun st m).sessionInfo = st.sessionInfo := by
  unfold reconnectAttemptsRun
  induction m with
  | zero => exact ⟨rfl, rfl⟩
  | succ n ih =>
      rw [List.range_succ, List.foldl_append]
      exact ih

/-- C3 amended: after the configured number of consecutive transport
failures the service stops in the error state (the library retries no
further, so no state change follows `reconnect_failed`), and the caller is
notified of the reconnection failure exactly once, via `handleError` on the
`reconnect_failed` event. -/
theorem C3_reconnect_budget_error_state (st : ServiceState) (maxAttempts : Nat) :
    (reconnectFailureRun st maxAttempts).1.connectionState = ConnectionState.error ∧
    (reconnectFailureRun st maxAttempts).2.count Effect.errorNotified = 1 := by
  unfold reconnectFailureRun onReconnectFailed
  exact ⟨rfl, rfl⟩

/-- Witness for C3 amended: the budget of three from the spec, run from the
connected state. -/
theorem C3_reconnect_budget_error_state_witness :
    (reconnectFailureRun connectedState 3).1.connectionState = ConnectionState.error ∧
    (reconnectFailureRun connectedState 3).2.count Effect.errorNotified = 1 :=
  C3_reconnect_budget_error_state connectedState 3

/-! ## Section 4: AudioPlaybackService queue
(src/src/services/audioPlayback.ts lines 39-123)

The pipeline runs on the single browser event loop. `playNext` is modelled
as one atomic step: `isPlaying` is set before any await, so a frame
arriving while a decode is in flight only appends to the queue, which is
the same observable state as serializing that enqueue before or after the
step. Whether the two decode attempts of a frame succeed
(`audioContext.decodeAudioData`, then the raw PCM reinterpretation) is
carried on the frame as an oracle for the browser decoder. -/

/-- A received audio payload together with the outcome the browser decode
paths have on it. -/
structure Frame where
  id : Nat
  primaryOk : Bool
  pcmOk : Bool
deriving DecidableEq, Repr

/-- A frame is playable when the primary decode or the PCM fallback
succeeds. -/
def decodeOk (f : Frame) : Bool := f.primaryOk || f.pcmOk

/-- Mutable fields of `AudioPlaybackService`, plus observation counters:
`played` lists the frames whose `source.start()` ran, in order;
`idleSignals` counts `onEndCallback` firings; `errorsReported` counts the
catch-block error log of `playNext`; `pcmFallbackPlays` counts frames
played through the PCM fallback. -/
structure PlaybackState where
  audioQueue : List Frame
  isPlaying : Bool
  currentSource : Option Frame
  played : List Frame
  pcmFallbackPlays : Nat
  idleSignals : Nat
  errorsReported : Nat
deriving DecidableEq, Repr

/-- `AudioPlaybackService.playNext` (src/src/services/audioPlayback.ts
lines 62-123). Empty queue: clear `isPlaying`, fire the idle callback.
Otherwise shift the head, try the primary decode, fall back to PCM, play
on success; when both decodes fail the catch block clears `isPlaying`,
fires the idle callback and reports the error, with the head frame already
removed and no continuation to the rest of the queue. -/
def playNext (st : PlaybackState) : PlaybackState :=
  match st.audioQueue with
  | [] => { st with isPlaying := false, idleSignals := st.idleSignals + 1 }
  | f :: rest =>
    if f.primaryOk then
      { st with isPlaying := true, audioQueue := rest, currentSource := some f,
                played := st.played ++ [f] }
    else if f.pcmOk then
      { st with isPlaying := true, audioQueue := rest, currentSource := some f,
                played := st.played ++ [f],
                pcmFallbackPlays := st.pcmFallbackPlays + 1 }
    else
      { st with isPlaying := false, audioQueue := rest,
                errorsReported := st.errorsReported + 1,
                idleSignals := st.idleSignals + 1 }

/-- `AudioPlaybackService.addAudioData` (src/src/services/audioPlayback.ts
lines 39-57): push onto the queue, and start `playNext` when nothing is
playing (the push leaves `isPlaying` untouched, so reading it before or
after the push is the same). -/
def addAudioData (st : PlaybackState) (f : Frame) : PlaybackState :=
  if st.isPlaying then { st with audioQueue := st.audioQueue ++ [f] }
  else playNext { st with audioQueue := st.audioQueue ++ [f] }

/-- The `onended` handler installed on the playing source
(src/src/services/audioPlayback.ts lines 107-110): clear `currentSource`
and continue with `playNext`. It can only fire while a source exists. -/
def onEnded (st : PlaybackState) : PlaybackState :=
  match st.currentSource with
  | some _ => playNext { st with currentSource := none }
  | none => st

/-- External events driving the pipeline: a frame arriving from the
session, or the browser finishing the playback of the current source. -/
inductive PEvent
  | enqueue (f : Frame)
  | ended
deriving DecidableEq, Repr

/-- One event-loop step of the pipeline. -/
def pstep (st : PlaybackState) : PEvent → PlaybackState
  | PEvent.enqueue f => addAudioData st f
  | PEvent.ended => onEnded st

/-- A run of the pipeline over a sequence of events. -/
def prun (st : PlaybackState) (evs : List PEvent) : PlaybackState :=
  evs.foldl pstep st

/-- The pipeline as constructed (src/src/services/audioPlayback.ts lines
11-15), after `initialize`. -/
def initialPlayback : PlaybackState :=
  { audioQueue := []
    isPlaying := false
    currentSource := none
    played := []
    pcmFallbackPlays := 0
    idleSignals := 0
    errorsReported := 0 }

/-- The frames enqueued by an event sequence, in arrival order. -/
def enqueuedOf (evs : List PEvent) : List Frame :=
  evs.filterMap fun e =>
    match e with
    | PEvent.enqueue f => some f
    | PEvent.ended => none

theorem enqueuedOf_cons (e : PEvent) (rest : List PEvent) :
    enqueuedOf (e :: rest) = enqueuedOf [e] ++ enqueuedOf rest := by
  unfold enqueuedOf
  cases e <;> simp

theorem mem_enqueuedOf (f : Frame) (evs : List PEvent) :
    f ∈ enqueuedOf evs ↔ PEvent.enqueue f ∈ evs := by
  unfold enqueuedOf
  rw [List.mem_filterMap]
  constructor
  · rintro ⟨e, he, hsome⟩
    cases e with
    | enqueue g =>
        simp only [Option.some.injEq] at hsome
        rwa [hsome] at he
    | ended => cases hsome
  · intro h
    exact ⟨PEvent.enqueue f, h, rfl⟩

theorem playNext_nil (st : PlaybackState) (h : st.audioQueue = []) :
    playNext st =
      { st with isPlaying := false, idleSignals := st.idleSignals + 1 } := by
  unfold playNext
  rw [h]

theorem playNext_cons_primary (st : PlaybackState) (f : Frame)
    (rest : List Frame) (h : st.audioQueue = f :: rest)
    (hp : f.primaryOk = true) :
    playNext st =
      { st with isPlaying := true, audioQueue := rest,
                currentSource := some f, played := st.played ++ [f] } := by
  unfold playNext
  rw [h]
  simp [hp]

theorem playNext_cons_pcm (st : PlaybackState) (f : Frame)
    (rest : List Frame) (h : st.audioQueue = f :: rest)
    (hp : f.primaryOk = false) (hc : f.pcmOk = true) :
    playNext st =
      { st with isPlaying := true, audioQueue := rest,
                currentSource := some f, played := st.played ++ [f],
                pcmFallbackPlays := st.pcmFallbackPlays + 1 } := by
  unfold playNext
  rw [h]
  simp [hp, hc]

theorem playNext_cons_fail (st : PlaybackState) (f : Frame)
    (rest : List Frame) (h : st.audioQueue = f :: rest)
    (hp : f.primaryOk = false) (hc : f.pcmOk = false) :
    playNext st =
      { st with isPlaying := false, audioQueue := rest,
                errorsReported := st.errorsReported + 1,
                idleSignals := st.idleSignals + 1 } := by
  unfold playNext
  rw [h]
  simp [hp, hc]

theorem playNext_fifo (st : PlaybackState)
    (hq : ∀ f ∈ st.audioQueue, decodeOk f = true) :
    (playNext st).played ++ (playNext st).audioQueue =
      st.played ++ st.audioQueue ∧
    (∀ f ∈ (playNext st).audioQueue, f ∈ st.audioQueue) ∧
    ((playNext st).idleSignals > st.idleSignals →
      (playNext st).audioQueue = []) := by
  cases hque : st.audioQueue with
  | nil =>
      refine ⟨?_, ?_, ?_⟩ <;> simp [playNext_nil st hque, hque]
  | cons f rest =>
      have hdf : decodeOk f = true :=
        hq f (by rw [hque]; exact List.mem_cons_self f rest)
      by_cases hp : f.primaryOk = true
      · rw [playNext_cons_primary st f rest hque hp]
        refine ⟨by simp, ?_, by simp⟩
        intro g hg
        exact List.mem_cons_of_mem f hg
      · have hp' : f.primaryOk = false := by
          cases hfp : f.primaryOk
          · rfl
          · exact absurd hfp hp
        have hpcm : f.pcmOk = true := by
          unfold decodeOk at hdf
          rw [hp'] at hdf
          simpa using hdf
        rw [playNext_cons_pcm st f rest hque hp' hpcm]
        refine ⟨by simp, ?_, by simp⟩
        intro g hg
        exact List.mem_cons_of_mem f hg

theorem onEnded_none (st : PlaybackState) (h : st.currentSource = none) :
    onEnded st = st := by
  unfold onEnded
  rw [h]

theorem onEnded_some (st : PlaybackState) (f : Frame)
    (h : st.currentSource = some f) :
    onEnded st = playNext { st with currentSource := none } := by
  unfold onEnded
  rw [h]

theorem pstep_fifo (st : PlaybackState) (e : PEvent)
    (hq : ∀ f ∈ st.audioQueue, decodeOk f = true)
    (he : ∀ f, e = PEvent.enqueue f → decodeOk f = true) :
    (pstep st e).played ++ (pstep st e).audioQueue =
      st.played ++ st.audioQueue ++ enqueuedOf [e] ∧
    (∀ f ∈ (pstep st e).audioQueue,
      f ∈ st.audioQueue ∨ e = PEvent.enqueue f) ∧
    ((pstep st e).idleSignals > st.idleSignals →
      (pstep st e).audioQueue = []) := by
  cases e with
  | enqueue f =>
      have hq1 : ∀ g ∈ st.audioQueue ++ [f], decodeOk g = true := by
        intro g hg
        rcases List.mem_append.1 hg with h | h
        · exact hq g h
        · rw [List.mem_singleton] at h
          rw [h]
          exact he f rfl
      have hps : pstep st (PEvent.enqueue f) = addAudioData st f := rfl
      rw [hps]
      unfold addAudioData
      by_cases hpl : st.isPlaying = true
      · rw [if_pos hpl]
        refine ⟨?_, ?_, ?_⟩
        · show st.played ++ (st.audioQueue ++ [f]) = _
          simp [enqueuedOf]
        · intro g hg
          rcases List.mem_append.1 hg with h | h
          · exact Or.inl h
          · rw [List.mem_singleton] at h
            exact Or.inr (by rw [h])
        · intro hidle
          exact absurd hidle (lt_irrefl _)
      · rw [if_neg hpl]
        obtain ⟨h1, h2, h3⟩ :=
          playNext_fifo { st with audioQueue := st.audioQueue ++ [f] } hq1
        refine ⟨?_, ?_, h3⟩
        · rw [h1]
          simp [enqueuedOf]
        · intro g hg
          rcases List.mem_append.1 (h2 g hg) with h | h
          · exact Or.inl h
          · rw [List.mem_singleton] at h
            exact Or.inr (by rw [h])
  | ended =>
      have hps : pstep st PEvent.ended = onEnded st := rfl
      rw [hps]
      cases hcur : st.currentSource with
      | none =>
          rw [onEnded_none st hcur]
          exact ⟨by simp [enqueuedOf], fun g hg => Or.inl hg,
            fun hidle => absurd hidle (lt_irrefl _)⟩
      | some f =>
          rw [onEnded_some st f hcur]
          obtain ⟨h1, h2, h3⟩ := playNext_fifo { st with currentSource := none } hq
          refine ⟨?_, fun g hg => Or.inl (h2 g hg), h3⟩
          rw [h1]
          simp [enqueuedOf]

theorem prun_fifo (st : PlaybackState) (evs : List PEvent)
    (hq : ∀ f ∈ st.audioQueue, decodeOk f = true)
    (he : ∀ f, PEvent.enqueue f ∈ evs → decodeOk f = true) :
    (prun st evs).played ++ (prun st evs).audioQueue =
      st.played ++ st.audioQueue ++ enqueuedOf evs := by
  induction evs generalizing st with
  | nil => simp [prun, enqueuedOf]
  | cons e rest ih =>
      obtain ⟨h1, h2, _⟩ := pstep_fifo st e hq
        (fun f hf => he f (by rw [hf]; exact List.mem_cons_self _ _))
      have hq' : ∀ f ∈ (pstep st e).audioQueue, decodeOk f = true := by
        intro f hf
        rcases h2 f hf with h | h
        · exact hq f h
        · exact he f (by rw [← h]; exact List.mem_cons_self _ _)
      have hrest := ih (pstep st e) hq'
        (fun f hf => he f (List.mem_cons_of_mem _ hf))
      show (prun (pstep st e) rest).played ++ (prun (pstep st e) rest).audioQueue = _
      rw [hrest, h1, enqueuedOf_cons e rest]
      simp [List.append_assoc]

/-- C2: for every event sequence whose enqueued frames all decode (on
either path), the frames played are exactly a prefix of the frames in
enqueue order (`played ++ pending queue = enqueued`: FIFO, none skipped or
reordered), and at any step of the run at which the idle callback fires,
the queue at that step is empty, so the pipeline never signals idle while
a frame is pending. -/
theorem C2_playback_fifo_no_idle_while_pending (evs : List PEvent)
    (he : ∀ f, PEvent.enqueue f ∈ evs → decodeOk f = true) :
    (prun initialPlayback evs).played ++ (prun initialPlayback evs).audioQueue =
      enqueuedOf evs ∧
    (∀ pre e post, evs = pre ++ e :: post →
      (prun initialPlayback (pre ++ [e])).idleSignals >
        (prun initialPlayback pre).idleSignals →
      (prun initialPlayback (pre ++ [e])).audioQueue = []) := by
  constructor
  · have := prun_fifo initialPlayback evs (by intro f hf; cases hf) he
    simpa [initialPlayback] using this
  · intro pre e post hsplit
    have hepre : ∀ f, PEvent.enqueue f ∈ pre → decodeOk f = true := by
      intro f hf
      exact he f (by rw [hsplit]; exact List.mem_append_left _ hf)
    have hqpre : ∀ f ∈ (prun initialPlayback pre).audioQueue, decodeOk f = true := by
      intro f hf
      have hfifo : (prun initialPlayback pre).played ++
          (prun initialPlayback pre).audioQueue = enqueuedOf pre := by
        simpa [initialPlayback] using
          prun_fifo initialPlayback pre (by intro g hg; cases hg) hepre
      have hmem : f ∈ enqueuedOf pre := by
        rw [← hfifo]
        exact List.mem_append_right (prun initialPlayback pre).played hf
      exact hepre f ((mem_enqueuedOf f pre).1 hmem)
    have hestep : ∀ f, e = PEvent.enqueue f → decodeOk f = true := by
      intro f hf
      exact he f (by rw [hsplit, hf]; exact List.mem_append_right _ (List.mem_cons_self _ _))
    obtain ⟨_, _, h3⟩ := pstep_fifo (prun initialPlayback pre) e hqpre hestep
    intro hidle
    have hstep : prun initialPlayback (pre ++ [e]) =
        pstep (prun initialPlayback pre) e := by
      unfold prun
      rw [List.foldl_append]
      rfl
    rw [hstep] at hidle ⊢
    exact h3 hidle

/-- First frame of the C2 witness run: decodable on the primary path. -/
def wfA : Frame := { id := 1, primaryOk := true, pcmOk := true }

/-- Second frame of the C2 witness run: decodable on the fallback path. -/
def wfB : Frame := { id := 2, primaryOk := false, pcmOk := true }

/-- Event sequence of the C2 witness run. -/
def witnessEvs : List PEvent :=
  [PEvent.enqueue wfA, PEvent.enqueue wfB, PEvent.ended, PEvent.ended]

/-- Witness for C2: two decodable frames enqueued and played to completion;
they play in enqueue order and idle fires only with the queue empty. -/
theorem C2_playback_fifo_no_idle_while_pending_witness :
    (prun initialPlayback witnessEvs).played ++
      (prun initialPlayback witnessEvs).audioQueue = enqueuedOf witnessEvs ∧
    (∀ pre e post, witnessEvs = pre ++ e :: post →
      (prun initialPlayback (pre ++ [e])).idleSignals >
        (prun initialPlayback pre).idleSignals →
      (prun initialPlayback (pre ++ [e])).audioQueue = []) :=
  C2_playback_fifo_no_idle_while_pending witnessEvs
    (by
      intro f hf
      simp only [witnessEvs, List.mem_cons, List.not_mem_nil, or_false] at hf
      rcases hf with h | h | h | h
      · injection h with h2
        rw [h2]
        rfl
      · injection h with h2
        rw [h2]
        rfl
      · exact PEvent.noConfusion h
      · exact PEvent.noConfusion h)

/-- A frame on which both decode paths fail. -/
def fBad : Frame := { id := 2, primaryOk := false, pcmOk := false }

/-- Decodable frames surrounding the bad one. -/
def fGoodA : Frame := { id := 1, primaryOk := true, pcmOk := true }

/-- Second decodable frame, queued behind the bad one. -/
def fGoodB : Frame := { id := 3, primaryOk := true, pcmOk := true }

/-- Event sequence of the C5 counterexample: a good frame plays, a bad and
a good frame are queued behind it, then the good frame finishes. -/
def failureEvs : List PEvent :=
  [PEvent.enqueue fGoodA, PEvent.enqueue fBad, PEvent.enqueue fGoodB,
   PEvent.ended]

/-- C5 counterexample: when the doubly-undecodable frame is dropped, the
pipeline does not keep playing the remaining queued frame: it reports the
error, fires the idle callback and stops with `fGoodB` still pending and
unplayed, so playback of the remaining queued frames is affected. -/
theorem C5_counterexample :
    (prun initialPlayback failureEvs).errorsReported = 1 ∧
    (prun initialPlayback failureEvs).audioQueue = [fGoodB] ∧
    (prun initialPlayback failureEvs).played = [fGoodA] ∧
    (prun initialPlayback failureEvs).isPlaying = false ∧
    (prun initialPlayback failureEvs).idleSignals = 1 := by
  decide

/-- C5 amended: when the primary decode of the head frame fails, the PCM
fallback is attempted transparently (the frame still plays, no error is
reported); when both paths fail, the error is reported once and exactly
that frame is dropped, but the pipeline then halts instead of continuing:
it clears `isPlaying` and fires the idle callback even when further frames
remain queued, and those frames start again only once a later enqueue
triggers `playNext`. -/
theorem C5_decode_failure_single_frame (st : PlaybackState) (f : Frame)
    (rest : List Frame) (hqe : st.audioQueue = f :: rest) :
    (f.primaryOk = false → f.pcmOk = true →
      playNext st =
        { st with isPlaying := true, audioQueue := rest,
                  currentSource := some f, played := st.played ++ [f],
                  pcmFallbackPlays := st.pcmFallbackPlays + 1 }) ∧
    (f.primaryOk = false → f.pcmOk = false →
      playNext st =
        { st with isPlaying := false, audioQueue := rest,
                  errorsReported := st.errorsReported + 1,
                  idleSignals := st.idleSignals + 1 }) := by
  constructor
  · intro h1 h2
    exact playNext_cons_pcm st f rest hqe h1 h2
  · intro h1 h2
    exact playNext_cons_fail st f rest hqe h1 h2

/-- Witness for C5 amended: a queue headed by a PCM-only frame, and a
queue headed by the doubly-undecodable frame. -/
theorem C5_decode_failure_single_frame_witness :
    (Frame.primaryOk { id := 2, primaryOk := false, pcmOk := false } = false →
      Frame.pcmOk { id := 2, primaryOk := false, pcmOk := false } = true →
      playNext { audioQueue := [{ id := 2, primaryOk := false, pcmOk := false },
                                { id := 3, primaryOk := true, pcmOk := true }],
                 isPlaying := true, currentSource := none, played := [],
                 pcmFallbackPlays := 0, idleSignals := 0, errorsReported := 0 } =
        { audioQueue := [{ id := 3, primaryOk := true, pcmOk := true }],
          isPlaying := true,
          currentSource := some { id := 2, primaryOk := false, pcmOk := false },
          played := [{ id := 2, primaryOk := false, pcmOk := false }],
          pcmFallbackPlays := 1, idleSignals := 0, errorsReported := 0 }) ∧
    (Frame.primaryOk { id := 2, primaryOk := false, pcmOk := false } = false →
      Frame.pcmOk { id := 2, primaryOk := false, pcmOk := false } = false →
      playNext { audioQueue := [{ id := 2, primaryOk := false, pcmOk := false },
                                { id := 3, primaryOk := true, pcmOk := true }],
                 isPlaying := true, currentSource := none, played := [],
                 pcmFallbackPlays := 0, idleSignals := 0, errorsReported := 0 } =
        { audioQueue := [{ id := 3, primaryOk := true, pcmOk := true }],
          isPlaying := false, currentSource := none, played := [],
          pcmFallbackPlays := 0, idleSignals := 1, errorsReported := 1 }) :=
  C5_decode_failure_single_frame
    { audioQueue := [{ id := 2, primaryOk := false, pcmOk := false },
                     { id := 3, primaryOk := true, pcmOk := true }],
      isPlaying := true, currentSource := none, played := [],
      pcmFallbackPlays := 0, idleSignals := 0, errorsReported := 0 }
    { id := 2, primaryOk := false, pcmOk := false }
    [{ id := 3, primaryOk := true, pcmOk := true }]
    rfl

/-! ## Section 5: getSessionInfo shallow copy

`getSessionInfo` returns `{...this.sessionInfo}` (src/unnamed/part_004
lines 433-435): a freshly allocated object whose fields are copied from the
internal record. Object identity is made explicit with a small heap of
`SessionInfo` records addressed by allocation index; the service keeps a
reference to its own record, and the spread expression is a read followed
by a fresh allocation carrying the same field values. -/

/-- Heap of `SessionInfo` objects; the address of a record is its
allocation index. -/
structure SIHeap where
  cells : List SessionInfo
deriving DecidableEq, Repr

/-- Allocate a fresh object holding `v`; returns the new heap and the
address of the fresh object. -/
def SIHeap.alloc (h : SIHeap) (v : SessionInfo) : SIHeap × Nat :=
  ({ cells := h.cells ++ [v] }, h.cells.length)

/-- Read the record at an address. -/
def SIHeap.read (h : SIHeap) (r : Nat) : Option SessionInfo :=
  h.cells[r]?

/-- Overwrite the record at an address (a caller mutating the object it
was handed). -/
def SIHeap.write (h : SIHeap) (r : Nat) (v : SessionInfo) : SIHeap :=
  { cells := h.cells.set r v }

/-- `WebsocketService.getSessionInfo` (src/unnamed/part_004 lines 430-436):
`return {...this.sessionInfo}` reads the internal record and allocates a
fresh shallow copy of it. `infoRef` is the service's internal reference. -/
def getSessionInfo (h : SIHeap) (infoRef : Nat) : Option (SIHeap × Nat) :=
  (h.read infoRef).map fun v => h.alloc v

/-- C10: `getSessionInfo` hands back a fresh object distinct from the
internal record but holding equal field values; overwriting the returned
object never changes the internal record, and two successive calls return
distinct objects with equal values. -/
theorem C10_getSessionInfo_shallow_copy (h : SIHeap) (infoRef : Nat)
    (v : SessionInfo) (hr : h.read infoRef = some v) :
    ∃ h1 r1, getSessionInfo h infoRef = some (h1, r1) ∧
      r1 ≠ infoRef ∧
      h1.read r1 = some v ∧
      h1.read infoRef = some v ∧
      (∀ w, (h1.write r1 w).read infoRef = some v) ∧
      (∃ h2 r2, getSessionInfo h1 infoRef = some (h2, r2) ∧
        r2 ≠ r1 ∧ h2.read r2 = some v ∧ h2.read infoRef = some v) := by
  have hlt : infoRef < h.cells.length := (List.getElem?_eq_some.1 hr).1
  refine ⟨{ cells := h.cells ++ [v] }, h.cells.length, ?_, ?_, ?_, ?_, ?_, ?_⟩
  · unfold getSessionInfo
    rw [hr]
    rfl
  · omega
  · show (h.cells ++ [v])[h.cells.length]? = some v
    exact List.getElem?_concat_length h.cells v
  · show (h.cells ++ [v])[infoRef]? = some v
    rw [List.getElem?_append_left hlt]
    exact hr
  · intro w
    show ((h.cells ++ [v]).set h.cells.length w)[infoRef]? = some v
    rw [List.getElem?_set_ne (by omega)]
    rw [List.getElem?_append_left hlt]
    exact hr
  · have hr1 : SIHeap.read { cells := h.cells ++ [v] } infoRef = some v := by
      show (h.cells ++ [v])[infoRef]? = some v
      rw [List.getElem?_append_left hlt]
      exact hr
    refine ⟨{ cells := (h.cells ++ [v]) ++ [v] }, (h.cells ++ [v]).length,
      ?_, ?_, ?_, ?_⟩
    · unfold getSessionInfo
      rw [hr1]
      rfl
    · simp
    · show ((h.cells ++ [v]) ++ [v])[(h.cells ++ [v]).length]? = some v
      exact List.getElem?_concat_length _ v
    · show ((h.cells ++ [v]) ++ [v])[infoRef]? = some v
      rw [List.getElem?_append_left (by simp; omega)]
      exact hr1

/-- Witness for C10: a one-record heap holding the fresh session info
record, read through reference 0. -/
theorem C10_getSessionInfo_shallow_copy_witness :
    ∃ h1 r1,
      getSessionInfo { cells := [initialState.sessionInfo] } 0 = some (h1, r1) ∧
      r1 ≠ 0 ∧
      h1.read r1 = some initialState.sessionInfo ∧
      h1.read 0 = some initialState.sessionInfo ∧
      (∀ w, (h1.write r1 w).read 0 = some initialState.sessionInfo) ∧
      (∃ h2 r2, getSessionInfo h1 0 = some (h2, r2) ∧
        r2 ≠ r1 ∧ h2.read r2 = some initialState.sessionInfo ∧
        h2.read 0 = some initialState.sessionInfo) :=
  C10_getSessionInfo_shallow_copy { cells := [initialState.sessionInfo] } 0
    initialState.sessionInfo rfl

end VC
